import Mathlib

/-!
Verification of the `icmpx` repository: a shallow embedding in Lean 4 of the
ICMP packet filters, address selection, sockaddr conversion, socket-transport
construction, and the ping correlation engine, together with theorems checking
the natural-language specification against the embedded code.

Machine integers are modelled as `Nat` with explicit reductions modulo a power
of two where the Go code relies on fixed-width behaviour.
-/

namespace Icmpx

/-! ## Packet filters (src/filter.go)

The Go `IPv4Filter` holds a single `uint32` bitmask; `IPv6Filter` holds
`[8]uint32`, modelled as a total function from word index to word value
(only indices 0..7 are ever read for ICMPv6 types 0..255, matching the Go
array bounds). -/

/-- `IPv4Filter`: a raw bitmask mirroring the kernel's ICMPv4 filter. -/
structure IPv4Filter where
  data : Nat
deriving DecidableEq, Repr

/-- The all-ones 32-bit word, `1<<32 - 1` in Go. -/
def full32 : Nat := 2 ^ 32 - 1

/-- `IPv4Filter.Accept`: `f.data &^= 1 << (uint32(typ) & 31)`.
Go's AND NOT against a `uint32` is AND with the 32-bit complement. -/
def IPv4Filter.Accept (f : IPv4Filter) (typ : Nat) : IPv4Filter :=
  { data := f.data &&& (full32 ^^^ (1 <<< (typ % 32))) }

/-- `IPv4Filter.Block`: `f.data |= 1 << (uint32(typ) & 31)`. -/
def IPv4Filter.Block (f : IPv4Filter) (typ : Nat) : IPv4Filter :=
  { data := f.data ||| (1 <<< (typ % 32)) }

/-- `IPv4Filter.SetAll`: fill or clear the whole mask. -/
def IPv4Filter.SetAll (_f : IPv4Filter) (block : Bool) : IPv4Filter :=
  if block then { data := full32 } else { data := 0 }

/-- `IPv4Filter.WillBlock`: `f.data & (1 << (uint32(typ) & 31)) != 0`. -/
def IPv4Filter.WillBlock (f : IPv4Filter) (typ : Nat) : Bool :=
  f.data &&& (1 <<< (typ % 32)) != 0

/-- `IPv4AllowOnly`: block all, then accept each listed type. -/
def IPv4AllowOnly (types : List Nat) : IPv4Filter :=
  types.foldl (fun f t => f.Accept t) (IPv4Filter.SetAll ⟨0⟩ true)

/-- `IPv6Filter`: eight 32-bit words mirroring the kernel's ICMPv6 filter. -/
structure IPv6Filter where
  data : Nat → Nat

/-- `IPv6Filter.Accept`: `f.data[typ>>5] &^= 1 << (uint32(typ) & 31)`. -/
def IPv6Filter.Accept (f : IPv6Filter) (typ : Nat) : IPv6Filter :=
  { data := fun i =>
      if i = typ >>> 5 then f.data i &&& (full32 ^^^ (1 <<< (typ % 32))) else f.data i }

/-- `IPv6Filter.Block`: `f.data[typ>>5] |= 1 << (uint32(typ) & 31)`. -/
def IPv6Filter.Block (f : IPv6Filter) (typ : Nat) : IPv6Filter :=
  { data := fun i =>
      if i = typ >>> 5 then f.data i ||| (1 <<< (typ % 32)) else f.data i }

/-- `IPv6Filter.SetAll`: fill or clear every word of the mask. -/
def IPv6Filter.SetAll (_f : IPv6Filter) (block : Bool) : IPv6Filter :=
  if block then { data := fun _ => full32 } else { data := fun _ => 0 }

/-- `IPv6Filter.WillBlock`: `f.data[typ>>5] & (1 << (uint32(typ) & 31)) != 0`. -/
def IPv6Filter.WillBlock (f : IPv6Filter) (typ : Nat) : Bool :=
  f.data (typ >>> 5) &&& (1 <<< (typ % 32)) != 0

/-- `IPv6AllowOnly`: block all, then accept each listed type. -/
def IPv6AllowOnly (types : List Nat) : IPv6Filter :=
  types.foldl (fun f t => f.Accept t) (IPv6Filter.SetAll ⟨fun _ => 0⟩ true)

/-! ## netip.Addr and unix.Sockaddr model (src/bind_linux.go, src/conn_linux.go)

`netip.Addr` is modelled as a 4-byte or 16-byte address (byte lists) with an
attached zone string for IPv6. The classification predicates follow the
`net/netip` standard-library definitions the code calls. -/

/-- `netip.Addr`: an IPv4 (4 bytes) or IPv6 (16 bytes, zone string) address. -/
inductive AddrM
  | v4 (bytes : List Nat)
  | v6 (bytes : List Nat) (zone : String)
deriving DecidableEq, Repr

namespace AddrM

/-- `netip.Addr.Is4`. -/
def Is4 : AddrM → Bool
  | v4 _ => true
  | v6 _ _ => false

/-- `netip.Addr.Is6`. -/
def Is6 : AddrM → Bool
  | v4 _ => false
  | v6 _ _ => true

/-- Byte `i` of the address (0 beyond the byte list). -/
def byte : AddrM → Nat → Nat
  | v4 b, i => b.getD i 0
  | v6 b _, i => b.getD i 0

/-- `netip.Addr.Zone`. -/
def Zone : AddrM → String
  | v4 _ => ""
  | v6 _ z => z

/-- `netip.Addr.WithZone`: attach a zone to an IPv6 address, no-op on IPv4. -/
def WithZone : AddrM → String → AddrM
  | v4 b, _ => v4 b
  | v6 b _, z => v6 b z

/-- `netip.Addr.IsLinkLocalUnicast`: 169.254.0.0/16 for IPv4, fe80::/10 for IPv6. -/
def IsLinkLocalUnicast (a : AddrM) : Bool :=
  match a with
  | v4 _ => a.byte 0 == 169 && a.byte 1 == 254
  | v6 _ _ => a.byte 0 == 0xfe && a.byte 1 &&& 0xc0 == 0x80

/-- `netip.Addr.IsLinkLocalMulticast`: 224.0.0.0/24 for IPv4, ff02::/16
(with the flags nibble masked) for IPv6. -/
def IsLinkLocalMulticast (a : AddrM) : Bool :=
  match a with
  | v4 _ => a.byte 0 == 224 && a.byte 1 == 0 && a.byte 2 == 0
  | v6 _ _ => a.byte 0 == 0xff && a.byte 1 &&& 0x0f == 0x02

/-- `netip.Addr.IsLoopback`: 127.0.0.0/8 for IPv4, ::1 for IPv6. -/
def IsLoopback (a : AddrM) : Bool :=
  match a with
  | v4 _ => a.byte 0 == 127
  | v6 _ _ => (List.range 16).all fun i => a.byte i == (if i = 15 then 1 else 0)

/-- `netip.Addr.IsMulticast`: 224.0.0.0/4 for IPv4, ff00::/8 for IPv6. -/
def IsMulticast (a : AddrM) : Bool :=
  match a with
  | v4 _ => a.byte 0 &&& 0xf0 == 0xe0
  | v6 _ _ => a.byte 0 == 0xff

/-- `netip.Addr.IsPrivate`: RFC 1918 ranges for IPv4, fc00::/7 (ULA) for IPv6. -/
def IsPrivate (a : AddrM) : Bool :=
  match a with
  | v4 _ =>
      a.byte 0 == 10
        || (a.byte 0 == 172 && a.byte 1 &&& 0xf0 == 16)
        || (a.byte 0 == 192 && a.byte 1 == 168)
  | v6 _ _ => a.byte 0 &&& 0xfe == 0xfc

/-- Whether every byte of the address is zero (the unspecified address). -/
def isUnspecifiedBytes (a : AddrM) (n : Nat) : Bool :=
  (List.range n).all fun i => a.byte i == 0

/-- `netip.Addr.IsGlobalUnicast`: excludes the unspecified and broadcast
addresses, loopback, multicast and link-local unicast; note ULA/private
addresses still count as global unicast. -/
def IsGlobalUnicast (a : AddrM) : Bool :=
  match a with
  | v4 _ =>
      if a.isUnspecifiedBytes 4 || (List.range 4).all (fun i => a.byte i == 255) then false
      else !(a.IsLoopback || a.IsMulticast || a.IsLinkLocalUnicast)
  | v6 _ _ =>
      if a.isUnspecifiedBytes 16 then false
      else !(a.IsLoopback || a.IsMulticast || a.IsLinkLocalUnicast)

/-- `netip.Addr.Unmap`: rewrite an IPv4-mapped IPv6 address (::ffff:a.b.c.d)
to its IPv4 form; other addresses are unchanged. -/
def Unmap (a : AddrM) : AddrM :=
  match a with
  | v4 b => v4 b
  | v6 b _ =>
      if ((List.range 10).all fun i => b.getD i 0 == 0) && b.getD 10 0 == 0xff
          && b.getD 11 0 == 0xff then
        v4 (b.drop 12)
      else a

end AddrM

/-- `unix.Sockaddr`: either `SockaddrInet4` or `SockaddrInet6` (ports are
always zero for raw ICMP sockets and are omitted). -/
inductive SockaddrM
  | inet4 (addr : List Nat)
  | inet6 (addr : List Nat) (zoneId : Nat)
deriving DecidableEq, Repr

/-- Decimal digit characters of a positive number, most significant first;
the first argument is recursion fuel (any fuel at least the number works). -/
def itoaCore : Nat → Nat → List Char
  | 0, _ => []
  | _ + 1, 0 => []
  | fuel + 1, n + 1 =>
      itoaCore fuel ((n + 1) / 10) ++ [Nat.digitChar ((n + 1) % 10)]

/-- `strconv.Itoa` on a natural number: its decimal digit string. -/
def itoa (n : Nat) : String :=
  if n = 0 then "0" else String.mk (itoaCore n n)

/-- `toSockaddr` (src/bind_linux.go): converts an address plus optional zone
into a sockaddr; the zone is attached only for link-local IPv6 addresses. -/
def toSockaddr (ip : AddrM) (zone : Nat) : SockaddrM :=
  match ip with
  | .v4 b => .inet4 b
  | .v6 b _ =>
      .inet6 b (if ip.IsLinkLocalUnicast || ip.IsLinkLocalMulticast then zone else 0)

/-- `fromSockaddr` (src/bind_linux.go): converts a sockaddr back into an
address; a nonzero IPv6 zone id becomes a decimal zone string. -/
def fromSockaddr (sa : SockaddrM) : AddrM :=
  match sa with
  | .inet4 b => .v4 b
  | .inet6 b zid =>
      if zid > 0 then (AddrM.v6 b "").WithZone (itoa zid) else AddrM.v6 b ""

/-- `net.Interface`: the fields the code reads. -/
structure InterfaceM where
  index : Nat
  name : String
  mtu : Nat
deriving DecidableEq, Repr

/-- Errors produced by `fromSockaddrIPv6` (src/conn_linux.go). -/
inductive ConvErr
  | ipv4InIPv6Context (ip : AddrM)
  | unknownZone (z : String)
deriving DecidableEq, Repr

/-- `fromSockaddrIPv6` (src/conn_linux.go): converts an IPv6 peer sockaddr,
rewriting a zone equal to the interface index into the interface name,
accepting an empty zone, and rejecting anything else or an IPv4 address. -/
def fromSockaddrIPv6 (sa : SockaddrM) (ifi : InterfaceM) : Except ConvErr AddrM :=
  let ip := fromSockaddr sa
  if ip.Is4 then .error (.ipv4InIPv6Context ip)
  else
    let z := ip.Zone
    if z = itoa ifi.index then .ok (ip.WithZone ifi.name)
    else if z = "" then .ok ip
    else .error (.unknownZone z)

/-! ## Bind-address selection (src/bind_linux.go) -/

/-- Linux `AF_INET`. -/
def AF_INET : Nat := 2

/-- Linux `AF_INET6`. -/
def AF_INET6 : Nat := 10

/-- Linux `IFA_F_MANAGETEMPADDR`. -/
def IFA_F_MANAGETEMPADDR : Nat := 0x100

/-- `rtnetlink.AddressMessage`: the fields the selector reads (`Family`,
`Index`, `Attributes.Address`, `Attributes.Flags`). -/
structure AddressMessage where
  family : Nat
  index : Nat
  address : List Nat
  flags : Nat
deriving DecidableEq, Repr

/-- `netip.AddrFromSlice`: 4 bytes give an IPv4 address, 16 an IPv6 one. -/
def AddrFromSlice (b : List Nat) : Option AddrM :=
  if b.length = 4 then some (.v4 b)
  else if b.length = 16 then some (.v6 b "") else none

/-- `bindContext.selectIPv4`: the first matching, parseable address wins. -/
def selectIPv4go : Nat → List AddressMessage → Option (SockaddrM × AddrM)
  | _, [] => none
  | idx, m :: rest =>
      if m.family = AF_INET ∧ m.index = idx then
        match AddrFromSlice m.address with
        | none => selectIPv4go idx rest
        | some ip0 =>
            let ip := ip0.Unmap
            some (toSockaddr ip 0, ip)
      else selectIPv4go idx rest

/-- The IPv6 preference test in `selectIPv6`: global unicast, not ULA, and
flagged as generating temporary addresses. -/
def preferredV6 (ip : AddrM) (flags : Nat) : Bool :=
  !ip.IsPrivate && ip.IsGlobalUnicast && (flags &&& IFA_F_MANAGETEMPADDR != 0)

/-- The loop of `bindContext.selectIPv6`, with the running `bind` candidate
(`none` models the invalid zero `netip.Addr`). -/
def selectIPv6go : Nat → Option AddrM → List AddressMessage → Option AddrM
  | _, bind, [] => bind
  | idx, bind, m :: rest =>
      if m.family = AF_INET6 ∧ m.index = idx then
        match AddrFromSlice m.address with
        | none => selectIPv6go idx bind rest
        | some ip =>
            let bind1 := if bind.isNone then some ip else bind
            let bind2 := if preferredV6 ip m.flags then some ip else bind1
            selectIPv6go idx bind2 rest
      else selectIPv6go idx bind rest

/-- `bindContext.selectIPv6`: run the loop and attach the interface index as
the sockaddr zone. -/
def selectIPv6M (ifi : InterfaceM) (msgs : List AddressMessage) :
    Option (SockaddrM × AddrM) :=
  match selectIPv6go ifi.index none msgs with
  | none => none
  | some bind => some (toSockaddr bind ifi.index, bind)

/-- The messages matching the IPv6 family and the interface index whose
address bytes parse, paired with their kernel flags; used to state the
selection property of `selectIPv6` (the spec's "valid matching addresses"). -/
def v6ValidMatches (idx : Nat) (msgs : List AddressMessage) : List (AddrM × Nat) :=
  msgs.filterMap fun m =>
    if m.family = AF_INET6 ∧ m.index = idx then
      (AddrFromSlice m.address).map (fun ip => (ip, m.flags))
    else none

/-- The valid matches that pass the preference test (the spec's "preferred
addresses"). -/
def v6PreferredMatches (idx : Nat) (msgs : List AddressMessage) : List (AddrM × Nat) :=
  (v6ValidMatches idx msgs).filter fun p => preferredV6 p.1 p.2

/-- The `family` enumeration of src/bind_linux.go. -/
inductive Family
  | fIPv4
  | fIPv6
deriving DecidableEq, Repr

/-- `family.String`. -/
def Family.name : Family → String
  | .fIPv4 => "IPv4"
  | .fIPv6 => "IPv6"

/-- `fmt`'s `%q` rendering of an interface name (no escaping needed for the
plain names the code handles). -/
def goQuote (s : String) : String := "\x22" ++ s ++ "\x22"

/-- `bindContext.Select`: dispatch on the family and wrap a missing result in
the descriptive error built with `fmt.Errorf`. -/
def SelectM (fam : Family) (ifi : InterfaceM) (msgs : List AddressMessage) :
    Except String (SockaddrM × AddrM) :=
  let r := match fam with
    | .fIPv4 => selectIPv4go ifi.index msgs
    | .fIPv6 => selectIPv6M ifi msgs
  match r with
  | some p => .ok p
  | none => .error ("no valid " ++ fam.name ++ " bind address for " ++ goQuote ifi.name)

/-! ## Socket transport construction (src/conn_linux.go)

`listenIPv4`/`listenIPv6` run a fixed sequence of fallible steps; the OS
outcomes of those steps are the environment. The model additionally records
a trace of socket open/close events so resource leaks are observable. -/

/-- Which step of listen failed (the error values the OS steps return). -/
inductive ListenErr
  | bindAddrErr
  | openErr
  | bindToIfErr
  | filterErr
  | bindErr
deriving DecidableEq, Repr

/-- Environment: outcome of each OS step of listen construction. -/
structure ListenEnv where
  bindRes : Except ListenErr (SockaddrM × AddrM)
  openRes : Except ListenErr Unit
  bindToIfRes : Except ListenErr Unit
  filterRes : Except ListenErr Unit
  bindCallRes : Except ListenErr Unit

/-- Raw-socket lifecycle events. -/
inductive SockEv
  | opened
  | closed
deriving DecidableEq, BEq, Repr

/-- `IPv4Conn`/`IPv6Conn` as produced by listen: bind address and a receive
buffer sized to the interface MTU. -/
structure ConnM where
  ip : AddrM
  bufLen : Nat
deriving DecidableEq, Repr

/-- `listenIPv4` (src/conn_linux.go): bind address, open socket, restrict to
the interface, optionally install the filter, bind; every error after the
socket is open closes it first. -/
def listenIPv4M (hasFilter : Bool) (ifi : InterfaceM) (env : ListenEnv) :
    Except ListenErr ConnM × List SockEv :=
  match env.bindRes with
  | .error e => (.error e, [])
  | .ok (_sa, ip) =>
      match env.openRes with
      | .error e => (.error e, [])
      | .ok _ =>
          match env.bindToIfRes with
          | .error e => (.error e, [.opened, .closed])
          | .ok _ =>
              match (if hasFilter then env.filterRes else .ok ()) with
              | .error e => (.error e, [.opened, .closed])
              | .ok _ =>
                  match env.bindCallRes with
                  | .error e => (.error e, [.opened, .closed])
                  | .ok _ => (.ok { ip := ip, bufLen := ifi.mtu }, [.opened])

/-- `listenIPv6` (src/conn_linux.go): identical step sequence on the IPv6
socket. -/
def listenIPv6M (hasFilter : Bool) (ifi : InterfaceM) (env : ListenEnv) :
    Except ListenErr ConnM × List SockEv :=
  match env.bindRes with
  | .error e => (.error e, [])
  | .ok (_sa, ip) =>
      match env.openRes with
      | .error e => (.error e, [])
      | .ok _ =>
          match env.bindToIfRes with
          | .error e => (.error e, [.opened, .closed])
          | .ok _ =>
              match (if hasFilter then env.filterRes else .ok ()) with
              | .error e => (.error e, [.opened, .closed])
              | .ok _ =>
                  match env.bindCallRes with
                  | .error e => (.error e, [.opened, .closed])
                  | .ok _ => (.ok { ip := ip, bufLen := ifi.mtu }, [.opened])

/-! ## Ping correlation engine (echo client, src/unnamed/part_000)

The engine's two maps (`pings`, `responses`) are modelled as association
lists; the single-slot reply channel is an `Option` buffer. Wall-clock
durations and goroutine scheduling stay outside the embedding: the outcome of
each `doPing` wait (reply, timer expiry, cancellation) and the bytes produced
by `crypto/rand` are environment inputs. -/

/-- Association-list lookup (Go map read). -/
def alistLookup {α β : Type} [DecidableEq α] : List (α × β) → α → Option β
  | [], _ => none
  | (k, v) :: rest, a => if k = a then some v else alistLookup rest a

/-- Association-list write (Go map assignment). -/
def alistSet {α β : Type} [DecidableEq α] : List (α × β) → α → β → List (α × β)
  | [], a, v => [(a, v)]
  | (k, w) :: rest, a, v =>
      if k = a then (a, v) :: rest else (k, w) :: alistSet rest a v

/-- `icmp.Echo`: identifier, sequence number and opaque payload. -/
structure EchoMsg where
  id : Nat
  seq : Nat
  data : List Nat
deriving DecidableEq, Repr

/-- `pingResponse`: an echo reply plus the peer address, as dispatched by the
background reader. -/
structure PingResponseM where
  echoMsg : EchoMsg
  ip : AddrM
deriving DecidableEq, Repr

/-- `connContext.pings`: per-destination echo state. -/
abbrev PingsMap := List (AddrM × EchoMsg)

/-- `connContext.responses`: reply registry, identifier to one-slot buffer. -/
abbrev RespMap := List (Nat × Option PingResponseM)

/-- `binary.BigEndian.Uint16(data[:2])`: big-endian 16-bit integer from the
first two payload bytes (byte values taken modulo 256). -/
def beUint16 (d : List Nat) : Nat := 256 * (d.getD 0 0 % 256) + (d.getD 1 0 % 256)

/-- `connContext.echo`: look up or create the per-destination echo state.
An existing entry gets its sequence number incremented; a new destination
gets an 8-byte random payload (`randRead`, an environment input standing for
`crypto/rand.Read`), identifier derived from its first two bytes, sequence 1,
and a fresh one-slot reply channel registered under the identifier. -/
def connEcho (pings : PingsMap) (responses : RespMap) (ip : AddrM)
    (randRead : Except Unit (List Nat)) :
    Except Unit (EchoMsg × PingsMap × RespMap) :=
  match alistLookup pings ip with
  | some e =>
      let e2 : EchoMsg := { e with seq := e.seq + 1 }
      .ok (e2, alistSet pings ip e2, responses)
  | none =>
      match randRead with
      | .error e => .error e
      | .ok data =>
          let e : EchoMsg := { id := beUint16 data, seq := 1, data := data }
          let responses2 :=
            match alistLookup responses e.id with
            | some _ => responses
            | none => alistSet responses e.id none
          .ok (e, alistSet pings ip e, responses2)

/-- A Go send on a buffered channel of capacity one: it fills an empty slot
and blocks when the slot is already occupied. -/
inductive SendOutcome
  | delivered (slot : Option PingResponseM)
  | blocked
deriving DecidableEq, Repr

/-- Semantics of `pingC <- v` for a `make(chan pingResponse, 1)` channel. -/
def chanSend1 (slot : Option PingResponseM) (v : PingResponseM) : SendOutcome :=
  match slot with
  | none => .delivered (some v)
  | some _ => .blocked

/-- Result of one received echo in `connContext.readLoop`. -/
inductive DispatchResult
  | noWaiter
  | delivered (slot : Option PingResponseM)
  | blocked
deriving DecidableEq, Repr

/-- The delivery step of `connContext.readLoop` for one received echo: look
up the registry by the echo identifier; with no entry the datagram is
discarded, otherwise the reply is sent on the channel with plain-send
semantics. -/
def readLoopDispatch (responses : RespMap) (echo : EchoMsg) (ip : AddrM) :
    DispatchResult :=
  match alistLookup responses echo.id with
  | none => .noWaiter
  | some slot =>
      match chanSend1 slot { echoMsg := echo, ip := ip } with
      | .delivered s => .delivered s
      | .blocked => .blocked

/-- The errors a `Ping` call can produce. `retrySentinel` is the internal
`errRetry` value. -/
inductive PingError
  | retrySentinel
  | sendFailed
  | echoFailed
  | ctxCancelled
deriving DecidableEq, Repr

/-- `Response` (duration omitted: wall-clock time is outside the embedding). -/
structure ResponseM where
  ping : EchoMsg
  pong : EchoMsg
  ip : AddrM
deriving DecidableEq, Repr

/-- What the environment does during one `doPing` attempt: the send fails, a
matching reply arrives on the channel, the retry timer fires first, or the
caller's context is cancelled. -/
inductive DoPingOutcome
  | sendErr
  | reply (res : PingResponseM)
  | timeout
  | cancelled
deriving DecidableEq, Repr

/-- `connContext.doPing`: send the echo request, then wait; a reply yields a
`Response` built from the request just sent, the timer yields `errRetry`,
cancellation yields the context error. -/
def doPingM (echo : EchoMsg) (oc : DoPingOutcome) : Except PingError ResponseM :=
  match oc with
  | .sendErr => .error .sendFailed
  | .reply r => .ok { ping := echo, pong := r.echoMsg, ip := r.ip }
  | .timeout => .error .retrySentinel
  | .cancelled => .error .ctxCancelled

/-- `connContext.Ping`: the attempt loop. Each iteration regenerates the echo
state (incrementing the sequence number) and runs one `doPing`; `errRetry`
re-enters the loop, anything else returns. The list of attempt outcomes is
the environment; `none` means the call is still looping when the supplied
outcomes run out. -/
def pingLoop : PingsMap → RespMap → AddrM → Except Unit (List Nat) →
    List DoPingOutcome → Option (Except PingError ResponseM)
  | _, _, _, _, [] => none
  | pings, responses, dst, randRead, oc :: rest =>
      match connEcho pings responses dst randRead with
      | .error _ => some (.error .echoFailed)
      | .ok (e, pings2, responses2) =>
          match doPingM e oc with
          | .ok res => some (.ok res)
          | .error .retrySentinel => pingLoop pings2 responses2 dst randRead rest
          | .error err => some (.error err)

/-! ## END OF DEFINITIONS -/

/-! ### Filter lemmas -/

/-- The bit test `n & (1 << i) != 0` used by `WillBlock` is `Nat.testBit`. -/
theorem and_shift_ne_zero (n i : Nat) : (n &&& (1 <<< i) != 0) = n.testBit i := by
  rw [Nat.shiftLeft_eq, one_mul, Nat.and_two_pow]
  cases h : n.testBit i <;> simp [h]

/-- Bits of the AND-NOT mask used by `Accept`. -/
theorem testBit_acceptMask {k j : Nat} (hj : j < 32) :
    (full32 ^^^ (1 <<< k)).testBit j = !(decide (j = k)) := by
  rw [full32, Nat.testBit_xor, Nat.shiftLeft_eq, one_mul, Nat.testBit_two_pow_sub_one]
  rcases eq_or_ne j k with rfl | h
  · simp [Nat.testBit_two_pow_self, hj]
  · simp [Nat.testBit_two_pow_of_ne (Ne.symm h), h, hj]

/-- Effect of `IPv4Filter.Accept` on `WillBlock`: it clears exactly the
residue class of the accepted type modulo 32. -/
theorem willBlock_accept (f : IPv4Filter) (t u : Nat) :
    (f.Accept t).WillBlock u = (f.WillBlock u && !(decide (u % 32 = t % 32))) := by
  unfold IPv4Filter.Accept IPv4Filter.WillBlock
  simp only [and_shift_ne_zero, Nat.testBit_and]
  rw [testBit_acceptMask (Nat.mod_lt _ (by norm_num))]

/-- After `SetAll(true)` every type is blocked. -/
theorem willBlock_setAllTrue (t : Nat) :
    (IPv4Filter.SetAll ⟨0⟩ true).WillBlock t = true := by
  unfold IPv4Filter.SetAll IPv4Filter.WillBlock
  simp only [if_pos, full32, and_shift_ne_zero, Nat.testBit_two_pow_sub_one]
  exact decide_eq_true (Nat.mod_lt _ (by norm_num))

/-- Folding `Accept` over a list clears exactly the listed residue classes. -/
theorem willBlock_foldl_accept (ts : List Nat) (f : IPv4Filter) (t : Nat) :
    (ts.foldl (fun f s => f.Accept s) f).WillBlock t
      = (f.WillBlock t && decide (∀ s ∈ ts, s % 32 ≠ t % 32)) := by
  induction ts generalizing f with
  | nil => simp
  | cons s rest ih =>
      simp only [List.foldl_cons, ih, willBlock_accept, List.forall_mem_cons, Bool.decide_and,
        decide_not]
      rw [show decide (t % 32 = s % 32) = decide (s % 32 = t % 32) from
        decide_eq_decide.mpr eq_comm, Bool.and_assoc]

/-- Characterization of `IPv4AllowOnly`: a type is blocked iff no listed type
shares its residue modulo 32. -/
theorem willBlock_allowOnly (ts : List Nat) (t : Nat) :
    (IPv4AllowOnly ts).WillBlock t = decide (∀ s ∈ ts, s % 32 ≠ t % 32) := by
  rw [IPv4AllowOnly, willBlock_foldl_accept, willBlock_setAllTrue, Bool.true_and]

/-- Effect of `IPv6Filter.Accept` on `WillBlock`: it clears exactly the
(word, bit) position of the accepted type. -/
theorem v6willBlock_accept (f : IPv6Filter) (t u : Nat) :
    (f.Accept t).WillBlock u
      = (f.WillBlock u && !(decide (u >>> 5 = t >>> 5 ∧ u % 32 = t % 32))) := by
  unfold IPv6Filter.Accept IPv6Filter.WillBlock
  by_cases h : u >>> 5 = t >>> 5
  · simp only [h, if_pos, and_shift_ne_zero, Nat.testBit_and,
      testBit_acceptMask (Nat.mod_lt _ (by norm_num : (0:Nat) < 32)), decide_eq_true h,
      Bool.true_and, decide_eq_true_eq]
    simp [Bool.decide_and, h]
  · simp [h, and_shift_ne_zero]

/-- After `SetAll(true)` every ICMPv6 type is blocked. -/
theorem v6willBlock_setAllTrue (t : Nat) :
    (IPv6Filter.SetAll ⟨fun _ => 0⟩ true).WillBlock t = true := by
  unfold IPv6Filter.SetAll IPv6Filter.WillBlock
  simp only [if_pos, full32, and_shift_ne_zero, Nat.testBit_two_pow_sub_one]
  exact decide_eq_true (Nat.mod_lt _ (by norm_num))

/-- Folding `Accept` over a list clears exactly the listed (word, bit) keys. -/
theorem v6willBlock_foldl_accept (ts : List Nat) (f : IPv6Filter) (t : Nat) :
    (ts.foldl (fun f s => f.Accept s) f).WillBlock t
      = (f.WillBlock t && decide (∀ s ∈ ts, ¬(s >>> 5 = t >>> 5 ∧ s % 32 = t % 32))) := by
  induction ts generalizing f with
  | nil => simp
  | cons s rest ih =>
      simp only [List.foldl_cons, ih, v6willBlock_accept, List.forall_mem_cons, Bool.decide_and,
        decide_not]
      rw [show decide (t >>> 5 = s >>> 5) = decide (s >>> 5 = t >>> 5) from
            decide_eq_decide.mpr eq_comm,
          show decide (t % 32 = s % 32) = decide (s % 32 = t % 32) from
            decide_eq_decide.mpr eq_comm, Bool.and_assoc]

/-- The (word, bit) key `(t >>> 5, t % 32)` determines the type. -/
theorem v6_key_inj {t u : Nat} :
    (u >>> 5 = t >>> 5 ∧ u % 32 = t % 32) ↔ u = t := by
  rw [Nat.shiftRight_eq_div_pow, Nat.shiftRight_eq_div_pow]
  norm_num
  omega

/-- Characterization of `IPv6AllowOnly`: a type is blocked iff it is not in
the list (each ICMPv6 type owns a distinct bit). -/
theorem v6willBlock_allowOnly (ts : List Nat) (t : Nat) :
    (IPv6AllowOnly ts).WillBlock t = decide (t ∉ ts) := by
  rw [IPv6AllowOnly, v6willBlock_foldl_accept, v6willBlock_setAllTrue, Bool.true_and]
  refine decide_eq_decide.mpr ?_
  constructor
  · intro h hmem
    exact h t hmem (v6_key_inj.mpr rfl)
  · intro h s hs hkey
    exact h ((v6_key_inj.mp hkey) ▸ hs)

/-! ### Claims C3 and C9: filter behaviour -/

/-- C3 counterexample: the claim "WillBlock(t) returns true for every type t
not in the list" fails for `IPv4AllowOnly`: type 32 is not in the list `[0]`
yet `WillBlock 32` is false, because the IPv4 filter reduces types modulo 32. -/
theorem c3_counterexample :
    (IPv4AllowOnly [0]).WillBlock 32 = false ∧ (32 : Nat) ∉ ([0] : List Nat) := by
  constructor
  · decide
  · decide

/-- C3 (amended): for filters built by `IPv4AllowOnly`/`IPv6AllowOnly` over
ICMP types 0..255, every listed type is not blocked; an IPv6 type is blocked
iff it is not listed; an IPv4 type is blocked iff no listed type is congruent
to it modulo 32 (so a type 32 apart from a listed type is also let through). -/
theorem c3_allowOnly_willBlock (ts : List Nat) (t : Nat)
    (hts : ∀ s ∈ ts, s < 256) (ht : t < 256) :
    (∀ s ∈ ts, (IPv4AllowOnly ts).WillBlock s = false) ∧
    ((IPv4AllowOnly ts).WillBlock t = true ↔ ∀ s ∈ ts, s % 32 ≠ t % 32) ∧
    (∀ s ∈ ts, (IPv6AllowOnly ts).WillBlock s = false) ∧
    ((IPv6AllowOnly ts).WillBlock t = true ↔ t ∉ ts) := by
  refine ⟨?_, ?_, ?_, ?_⟩
  · intro s hs
    rw [willBlock_allowOnly]
    simp only [decide_eq_false_iff_not, not_forall]
    exact ⟨s, hs, by simp⟩
  · rw [willBlock_allowOnly, decide_eq_true_eq]
  · intro s hs
    rw [v6willBlock_allowOnly]
    simp [hs]
  · rw [v6willBlock_allowOnly, decide_eq_true_eq]

/-- C3 witness: `c3_allowOnly_willBlock` evaluated on the concrete filters
`IPv4AllowOnly [0]` and `IPv6AllowOnly [129]`. -/
theorem c3_allowOnly_willBlock_witness :
    ((IPv4AllowOnly [0]).WillBlock 0 = false) ∧
    ((IPv4AllowOnly [0]).WillBlock 8 = true) ∧
    ((IPv6AllowOnly [129]).WillBlock 129 = false) ∧
    ((IPv6AllowOnly [129]).WillBlock 128 = true) := by
  obtain ⟨h1, h2, -, -⟩ := c3_allowOnly_willBlock [0] 8 (by decide) (by decide)
  obtain ⟨-, -, g3, g4⟩ := c3_allowOnly_willBlock [129] 128 (by decide) (by decide)
  exact ⟨h1 0 (by decide), h2.mpr (by decide), g3 129 (by decide), g4.mpr (by decide)⟩

/-- C9: every `IPv4Filter` operation depends only on the type code modulo 32,
and accepting a type also accepts the type 32 above it. -/
theorem c9_ipv4Filter_mod32 :
    (∀ (f : IPv4Filter) (t u : Nat), t % 32 = u % 32 →
      f.WillBlock t = f.WillBlock u ∧ f.Accept t = f.Accept u ∧ f.Block t = f.Block u) ∧
    (∀ (f : IPv4Filter) (t : Nat), (f.Accept t).WillBlock (t + 32) = false) := by
  constructor
  · intro f t u h
    refine ⟨?_, ?_, ?_⟩ <;> simp only [IPv4Filter.WillBlock, IPv4Filter.Accept,
      IPv4Filter.Block, h]
  · intro f t
    rw [willBlock_accept]
    simp [Nat.add_mod_right]

/-- C9 witness: `c9_ipv4Filter_mod32` evaluated on a concrete filter. -/
theorem c9_ipv4Filter_mod32_witness :
    ((⟨5⟩ : IPv4Filter).WillBlock 3 = (⟨5⟩ : IPv4Filter).WillBlock 35) ∧
    (((⟨5⟩ : IPv4Filter).Accept 0).WillBlock 32 = false) :=
  ⟨(c9_ipv4Filter_mod32.1 ⟨5⟩ 3 35 (by decide)).1, c9_ipv4Filter_mod32.2 ⟨5⟩ 0⟩

/-! ### Claim C1: background reader delivery -/

/-- C1 counterexample: with an older undelivered reply occupying the one-slot
channel, the reader's plain channel send on the full slot blocks; the new
reply is not dropped, refuting "the reader never blocks on delivery". -/
theorem c1_counterexample :
    readLoopDispatch
        [(7, some { echoMsg := { id := 7, seq := 1, data := [1] }, ip := .v4 [127, 0, 0, 1] })]
        { id := 7, seq := 2, data := [1] } (.v4 [127, 0, 0, 1])
      = .blocked := by
  decide

/-- C1 (amended): the reader's delivery is a plain send on the single-slot
channel. With no registered channel the datagram is discarded; with an empty
slot the reply is enqueued; with an older undelivered reply in the slot the
reader blocks rather than dropping the new reply. -/
theorem c1_readLoop_delivery (responses : RespMap) (e : EchoMsg) (ip : AddrM) :
    (alistLookup responses e.id = none → readLoopDispatch responses e ip = .noWaiter) ∧
    (alistLookup responses e.id = some none →
      readLoopDispatch responses e ip = .delivered (some { echoMsg := e, ip := ip })) ∧
    (∀ old, alistLookup responses e.id = some (some old) →
      readLoopDispatch responses e ip = .blocked) := by
  refine ⟨fun h => ?_, fun h => ?_, fun old h => ?_⟩ <;>
    simp [readLoopDispatch, h, chanSend1]

/-- C1 witness: `c1_readLoop_delivery` evaluated on a registered empty slot. -/
theorem c1_readLoop_delivery_witness :
    readLoopDispatch [(3, none)] { id := 3, seq := 1, data := [] } (.v4 [10, 0, 0, 1])
      = .delivered (some { echoMsg := { id := 3, seq := 1, data := [] },
                           ip := .v4 [10, 0, 0, 1] }) :=
  (c1_readLoop_delivery [(3, none)] { id := 3, seq := 1, data := [] }
    (.v4 [10, 0, 0, 1])).2.1 (by decide)

/-! ### Claim C5: no socket leak in listen construction -/

/-- C5: in `listenIPv4` and `listenIPv6`, every error exit path has closed
the raw socket (open and close events balance), and only the success path
keeps exactly the one socket open, owned by the returned conn. -/
theorem c5_listen_no_socket_leak (hasFilter : Bool) (ifi : InterfaceM) (env : ListenEnv) :
    (match listenIPv4M hasFilter ifi env with
      | (.error _, tr) => tr.count .opened = tr.count .closed
      | (.ok _, tr) => tr.count .opened = tr.count .closed + 1) ∧
    (match listenIPv6M hasFilter ifi env with
      | (.error _, tr) => tr.count .opened = tr.count .closed
      | (.ok _, tr) => tr.count .opened = tr.count .closed + 1) := by
  obtain ⟨b, o, bi, f, bc⟩ := env
  constructor <;>
  · first
    | unfold listenIPv4M
    | unfold listenIPv6M
    cases b <;> cases o <;> cases bi <;> cases hasFilter <;> cases f <;> cases bc <;> rfl

/-! ### itoa: decimal rendering and its injectivity -/

/-- `itoaCore` with enough fuel produces the reversed decimal digits. -/
theorem itoaCore_eq_digits : ∀ fuel n, n ≤ fuel →
    itoaCore fuel n = ((Nat.digits 10 n).map Nat.digitChar).reverse := by
  intro fuel
  induction fuel with
  | zero => intro n hn; interval_cases n; simp [itoaCore]
  | succ fuel ih =>
      intro n hn
      cases n with
      | zero => simp [itoaCore]
      | succ m =>
          rw [show itoaCore (fuel + 1) (m + 1)
              = itoaCore fuel ((m + 1) / 10) ++ [Nat.digitChar ((m + 1) % 10)] from rfl]
          rw [ih ((m + 1) / 10) (by omega : (m + 1) / 10 ≤ fuel)]
          rw [Nat.digits_def' (by norm_num : 1 < 10) (Nat.succ_pos m)]
          simp

/-- `Nat.digitChar` is injective below 10, checked by enumeration. -/
theorem digitChar_inj_lt : ∀ a : Fin 10, ∀ b : Fin 10,
    Nat.digitChar a = Nat.digitChar b → a = b := by decide

/-- `Nat.digitChar` is injective on digits. -/
theorem digitChar_inj {a b : Nat} (ha : a < 10) (hb : b < 10)
    (h : Nat.digitChar a = Nat.digitChar b) : a = b :=
  congrArg Fin.val (digitChar_inj_lt ⟨a, ha⟩ ⟨b, hb⟩ h)

/-- Mapping `Nat.digitChar` over digit lists is injective. -/
theorem map_digitChar_inj : ∀ l1 l2 : List Nat, (∀ x ∈ l1, x < 10) → (∀ x ∈ l2, x < 10) →
    l1.map Nat.digitChar = l2.map Nat.digitChar → l1 = l2
  | [], [], _, _, _ => rfl
  | [], _ :: _, _, _, h => by simp at h
  | _ :: _, [], _, _, h => by simp at h
  | a :: l1, b :: l2, h1, h2, h => by
      simp only [List.map_cons, List.cons.injEq] at h
      have hab := digitChar_inj (h1 a (by simp)) (h2 b (by simp)) h.1
      have := map_digitChar_inj l1 l2 (fun x hx => h1 x (by simp [hx]))
        (fun x hx => h2 x (by simp [hx])) h.2
      rw [hab, this]

/-- Two numbers with the same digit-character rendering are equal. -/
theorem digits_map_rev_inj {m n : Nat}
    (h : ((Nat.digits 10 m).map Nat.digitChar).reverse
        = ((Nat.digits 10 n).map Nat.digitChar).reverse) : m = n := by
  have hrev := congrArg List.reverse h
  simp only [List.reverse_reverse] at hrev
  have heq := map_digitChar_inj (Nat.digits 10 m) (Nat.digits 10 n)
    (fun x hx => Nat.digits_lt_base (by norm_num) hx)
    (fun x hx => Nat.digits_lt_base (by norm_num) hx) hrev
  have h1 := Nat.ofDigits_digits 10 m
  rw [heq, Nat.ofDigits_digits] at h1
  exact h1.symm

/-- A number whose digits render as the single character 0 is zero. -/
theorem digits_map_eq_zero_char {n : Nat}
    (h : (Nat.digits 10 n).map Nat.digitChar = ['0']) : n = 0 := by
  have heq := map_digitChar_inj (Nat.digits 10 n) [0]
    (fun x hx => Nat.digits_lt_base (by norm_num) hx) (by simp) (by simpa using h)
  have h1 := Nat.ofDigits_digits 10 n
  rw [heq] at h1
  simpa [Nat.ofDigits] using h1.symm

/-- `itoa` is injective: distinct numbers render as distinct strings. -/
theorem itoa_inj {m n : Nat} (h : itoa m = itoa n) : m = n := by
  unfold itoa at h
  rcases Nat.eq_zero_or_pos m with rfl | hm <;> rcases Nat.eq_zero_or_pos n with rfl | hn
  · rfl
  · rw [if_pos rfl, if_neg (by omega), itoaCore_eq_digits n n le_rfl] at h
    have hdata : (['0'] : List Char) = ((Nat.digits 10 n).map Nat.digitChar).reverse :=
      congrArg String.data h
    have : n = 0 := digits_map_eq_zero_char (by
      have := congrArg List.reverse hdata
      simpa using this.symm)
    omega
  · rw [if_neg (by omega), if_pos rfl, itoaCore_eq_digits m m le_rfl] at h
    have hdata : ((Nat.digits 10 m).map Nat.digitChar).reverse = (['0'] : List Char) :=
      congrArg String.data h
    have : m = 0 := digits_map_eq_zero_char (by
      have := congrArg List.reverse hdata
      simpa using this)
    omega
  · rw [if_neg (by omega), if_neg (by omega), itoaCore_eq_digits m m le_rfl,
      itoaCore_eq_digits n n le_rfl] at h
    exact digits_map_rev_inj (congrArg String.data h)

/-- `itoa` never renders as the empty string. -/
theorem itoa_ne_empty (n : Nat) : itoa n ≠ "" := by
  unfold itoa
  split
  · decide
  · intro h
    have hdata := congrArg String.data h
    rw [itoaCore_eq_digits n n le_rfl] at hdata
    simp at hdata
    next hne =>
    exact hne (by simpa using Nat.digits_eq_nil_iff_eq_zero.mp hdata)

/-! ### Claim C8: IPv6 bind-address selection -/

/-- `getLast?` of a cons prefers the tail's last element. -/
theorem getLast?_cons_or {α : Type} (a : α) (l : List α) :
    (a :: l).getLast? = l.getLast?.or (some a) := by
  cases l with
  | nil => rfl
  | cons b t =>
      rw [List.getLast?_cons_cons]
      cases h : (b :: t).getLast? with
      | some x => rfl
      | none =>
          have hs : ((b :: t).getLast?).isSome = true := List.getLast?_isSome.mpr (by simp)
          rw [h] at hs
          simp at hs

/-- `v6ValidMatches` skips a message that does not match family and index. -/
theorem v6ValidMatches_cons_skip {idx : Nat} {m : AddressMessage}
    (rest : List AddressMessage) (hm : ¬(m.family = AF_INET6 ∧ m.index = idx)) :
    v6ValidMatches idx (m :: rest) = v6ValidMatches idx rest := by
  simp [v6ValidMatches, List.filterMap_cons, hm]

/-- `v6ValidMatches` skips a matching message whose address does not parse. -/
theorem v6ValidMatches_cons_none {idx : Nat} {m : AddressMessage}
    (rest : List AddressMessage) (hm : m.family = AF_INET6 ∧ m.index = idx)
    (hp : AddrFromSlice m.address = none) :
    v6ValidMatches idx (m :: rest) = v6ValidMatches idx rest := by
  simp [v6ValidMatches, List.filterMap_cons, hm, hp]

/-- `v6ValidMatches` keeps a matching, parseable message. -/
theorem v6ValidMatches_cons_some {idx : Nat} {m : AddressMessage} {ip : AddrM}
    (rest : List AddressMessage) (hm : m.family = AF_INET6 ∧ m.index = idx)
    (hp : AddrFromSlice m.address = some ip) :
    v6ValidMatches idx (m :: rest) = (ip, m.flags) :: v6ValidMatches idx rest := by
  simp [v6ValidMatches, List.filterMap_cons, hm, hp]

/-- The `selectIPv6` loop skips a non-matching message. -/
theorem selectIPv6go_cons_skip {idx : Nat} {m : AddressMessage}
    (bind : Option AddrM) (rest : List AddressMessage)
    (hm : ¬(m.family = AF_INET6 ∧ m.index = idx)) :
    selectIPv6go idx bind (m :: rest) = selectIPv6go idx bind rest := by
  simp [selectIPv6go, hm]

/-- The `selectIPv6` loop skips a matching message that does not parse. -/
theorem selectIPv6go_cons_none {idx : Nat} {m : AddressMessage}
    (bind : Option AddrM) (rest : List AddressMessage)
    (hm : m.family = AF_INET6 ∧ m.index = idx)
    (hp : AddrFromSlice m.address = none) :
    selectIPv6go idx bind (m :: rest) = selectIPv6go idx bind rest := by
  simp [selectIPv6go, hm, hp]

/-- The `selectIPv6` loop updates its candidate on a valid message. -/
theorem selectIPv6go_cons_some {idx : Nat} {m : AddressMessage} {ip : AddrM}
    (bind : Option AddrM) (rest : List AddressMessage)
    (hm : m.family = AF_INET6 ∧ m.index = idx)
    (hp : AddrFromSlice m.address = some ip) :
    selectIPv6go idx bind (m :: rest)
      = selectIPv6go idx
          (if preferredV6 ip m.flags then some ip else bind.or (some ip)) rest := by
  cases bind <;> simp [selectIPv6go, hm, hp, Option.or]

/-- `v6PreferredMatches` over a valid head message. -/
theorem v6PreferredMatches_cons_some {idx : Nat} {m : AddressMessage} {ip : AddrM}
    (rest : List AddressMessage) (hm : m.family = AF_INET6 ∧ m.index = idx)
    (hp : AddrFromSlice m.address = some ip) :
    v6PreferredMatches idx (m :: rest)
      = if preferredV6 ip m.flags then (ip, m.flags) :: v6PreferredMatches idx rest
        else v6PreferredMatches idx rest := by
  rw [v6PreferredMatches, v6ValidMatches_cons_some rest hm hp, List.filter_cons,
    v6PreferredMatches]

/-- With no preferred match, the `selectIPv6` loop keeps the incoming
candidate if set, else falls back to the first valid matching address. -/
theorem selectIPv6go_no_preferred (idx : Nat) :
    ∀ (msgs : List AddressMessage) (bind : Option AddrM),
      v6PreferredMatches idx msgs = [] →
      selectIPv6go idx bind msgs
        = bind.or (((v6ValidMatches idx msgs).head?).map Prod.fst) := by
  intro msgs
  induction msgs with
  | nil =>
      intro bind _
      simp [selectIPv6go, v6ValidMatches, Option.or_none]
  | cons m rest ih =>
      intro bind hpref
      by_cases hm : m.family = AF_INET6 ∧ m.index = idx
      · cases hp : AddrFromSlice m.address with
        | none =>
            rw [selectIPv6go_cons_none bind rest hm hp, v6ValidMatches_cons_none rest hm hp]
            rw [v6PreferredMatches, v6ValidMatches_cons_none rest hm hp] at hpref
            exact ih bind hpref
        | some ip =>
            rw [v6PreferredMatches_cons_some rest hm hp] at hpref
            by_cases hq : preferredV6 ip m.flags
            · rw [if_pos hq] at hpref
              exact absurd hpref (by simp)
            · rw [if_neg hq] at hpref
              rw [selectIPv6go_cons_some bind rest hm hp, if_neg hq,
                v6ValidMatches_cons_some rest hm hp, ih _ hpref, Option.or_assoc]
              rfl
      · rw [selectIPv6go_cons_skip bind rest hm, v6ValidMatches_cons_skip rest hm]
        rw [v6PreferredMatches, v6ValidMatches_cons_skip rest hm] at hpref
        exact ih bind hpref

/-- With at least one preferred match, the `selectIPv6` loop returns the last
preferred address, whatever the incoming candidate. -/
theorem selectIPv6go_preferred (idx : Nat) :
    ∀ (msgs : List AddressMessage) (bind : Option AddrM),
      v6PreferredMatches idx msgs ≠ [] →
      selectIPv6go idx bind msgs
        = ((v6PreferredMatches idx msgs).getLast?).map Prod.fst := by
  intro msgs
  induction msgs with
  | nil =>
      intro bind hpref
      exact absurd rfl hpref
  | cons m rest ih =>
      intro bind hpref
      by_cases hm : m.family = AF_INET6 ∧ m.index = idx
      · cases hp : AddrFromSlice m.address with
        | none =>
            rw [selectIPv6go_cons_none bind rest hm hp]
            rw [show v6PreferredMatches idx (m :: rest) = v6PreferredMatches idx rest from by
              rw [v6PreferredMatches, v6ValidMatches_cons_none rest hm hp, v6PreferredMatches]]
              at hpref ⊢
            exact ih bind hpref
        | some ip =>
            rw [v6PreferredMatches_cons_some rest hm hp] at hpref ⊢
            rw [selectIPv6go_cons_some bind rest hm hp]
            by_cases hq : preferredV6 ip m.flags
            · rw [if_pos hq] at hpref ⊢
              rw [if_pos hq, getLast?_cons_or]
              rcases heq : v6PreferredMatches idx rest with _ | ⟨p, ps⟩
              · rw [selectIPv6go_no_preferred idx rest (some ip) heq]
                rfl
              · have hne : v6PreferredMatches idx rest ≠ [] := by rw [heq]; simp
                rw [ih (some ip) hne, heq]
                cases hl : (p :: ps).getLast? with
                | none => simp at hl
                | some x => rfl
            · rw [if_neg hq] at hpref ⊢
              rw [if_neg hq]
              exact ih _ hpref
      · rw [selectIPv6go_cons_skip bind rest hm]
        rw [show v6PreferredMatches idx (m :: rest) = v6PreferredMatches idx rest from by
          rw [v6PreferredMatches, v6ValidMatches_cons_skip rest hm, v6PreferredMatches]]
          at hpref ⊢
        exact ih bind hpref

/-- C8: `bindContext.Select` for IPv6 returns the last matching address that
is global-unicast, not unique-local, and flagged for temporary-address
generation when one exists; otherwise the first valid matching address; and
when no message matches the family and interface it fails with the
descriptive no-valid-bind-address error. -/
theorem c8_selectIPv6_selection (ifi : InterfaceM) (msgs : List AddressMessage) :
    (v6PreferredMatches ifi.index msgs ≠ [] →
      ∃ p, (v6PreferredMatches ifi.index msgs).getLast? = some p ∧
        SelectM .fIPv6 ifi msgs = .ok (toSockaddr p.1 ifi.index, p.1)) ∧
    (v6PreferredMatches ifi.index msgs = [] →
      ∀ q qs, v6ValidMatches ifi.index msgs = q :: qs →
        SelectM .fIPv6 ifi msgs = .ok (toSockaddr q.1 ifi.index, q.1)) ∧
    ((∀ m ∈ msgs, ¬(m.family = AF_INET6 ∧ m.index = ifi.index)) →
      SelectM .fIPv6 ifi msgs
        = .error ("no valid IPv6 bind address for " ++ goQuote ifi.name)) := by
  refine ⟨fun h => ?_, fun h q qs hv => ?_, fun h => ?_⟩
  · obtain ⟨p, hp⟩ := Option.isSome_iff_exists.mp (List.getLast?_isSome.mpr h)
    refine ⟨p, hp, ?_⟩
    rw [SelectM, selectIPv6M, selectIPv6go_preferred ifi.index msgs none h, hp]
    rfl
  · rw [SelectM, selectIPv6M, selectIPv6go_no_preferred ifi.index msgs none h, hv,
      Option.none_or]
    rfl
  · have hv : v6ValidMatches ifi.index msgs = [] := by
      rw [v6ValidMatches]
      exact List.filterMap_eq_nil_iff.mpr fun m hm => by rw [if_neg (h m hm)]
    have hpref : v6PreferredMatches ifi.index msgs = [] := by
      rw [v6PreferredMatches, hv]
      rfl
    rw [SelectM, selectIPv6M, selectIPv6go_no_preferred ifi.index msgs none hpref, hv,
      Option.none_or]
    rfl

/-- C8 witness: `c8_selectIPv6_selection` on the message set of the repo's
own selection test: loopback, a plain global unicast, and a global unicast
flagged `IFA_F_MANAGETEMPADDR`; the flagged one (the last preferred) wins. -/
theorem c8_selectIPv6_selection_witness :
    ∃ p, (v6PreferredMatches 1
        [⟨10, 1, [0, 0, 0, 0, 0, 0, 0, 0, 0, 0, 0, 0, 0, 0, 0, 1], 0⟩,
         ⟨10, 1, [0x20, 0x01, 0x0d, 0xb8, 0, 0, 0, 0, 0, 0, 0, 0, 0, 0, 0x12, 0x34], 0⟩,
         ⟨10, 1, [0x20, 0x01, 0x0d, 0xb8, 0, 0, 0, 0, 0, 0, 0, 0, 0, 0, 0, 1], 0x100⟩]).getLast?
        = some p ∧
      SelectM .fIPv6 ⟨1, "lo", 65536⟩
        [⟨10, 1, [0, 0, 0, 0, 0, 0, 0, 0, 0, 0, 0, 0, 0, 0, 0, 1], 0⟩,
         ⟨10, 1, [0x20, 0x01, 0x0d, 0xb8, 0, 0, 0, 0, 0, 0, 0, 0, 0, 0, 0x12, 0x34], 0⟩,
         ⟨10, 1, [0x20, 0x01, 0x0d, 0xb8, 0, 0, 0, 0, 0, 0, 0, 0, 0, 0, 0, 1], 0x100⟩]
        = .ok (toSockaddr p.1 1, p.1) :=
  (c8_selectIPv6_selection ⟨1, "lo", 65536⟩
    [⟨10, 1, [0, 0, 0, 0, 0, 0, 0, 0, 0, 0, 0, 0, 0, 0, 0, 1], 0⟩,
     ⟨10, 1, [0x20, 0x01, 0x0d, 0xb8, 0, 0, 0, 0, 0, 0, 0, 0, 0, 0, 0x12, 0x34], 0⟩,
     ⟨10, 1, [0x20, 0x01, 0x0d, 0xb8, 0, 0, 0, 0, 0, 0, 0, 0, 0, 0, 0, 1], 0x100⟩]).1
    (by decide)

/-! ### Claim C6: sockaddr round trip -/

/-- C6: `fromSockaddr (toSockaddr ip zone)` reproduces `ip` for every IPv4
address and every zoneless non-link-local IPv6 address (the zone argument is
not attached); for a link-local IPv6 address and a nonzero zone, the round
trip attaches the zone as its decimal string. -/
theorem c6_sockaddr_round_trip (b : List Nat) (zone : Nat) :
    (fromSockaddr (toSockaddr (AddrM.v4 b) zone) = AddrM.v4 b) ∧
    (¬((AddrM.v6 b "").IsLinkLocalUnicast || (AddrM.v6 b "").IsLinkLocalMulticast) = true →
      fromSockaddr (toSockaddr (AddrM.v6 b "") zone) = AddrM.v6 b "") ∧
    (((AddrM.v6 b "").IsLinkLocalUnicast || (AddrM.v6 b "").IsLinkLocalMulticast) = true →
      zone ≠ 0 →
      fromSockaddr (toSockaddr (AddrM.v6 b "") zone) = AddrM.v6 b (itoa zone)) := by
  refine ⟨rfl, fun h => ?_, fun h hz => ?_⟩
  · rw [toSockaddr]
    rw [if_neg (by simpa using h)]
    rfl
  · rw [toSockaddr]
    rw [if_pos h]
    rw [fromSockaddr]
    rw [if_pos (Nat.pos_of_ne_zero hz)]
    rfl

/-- C6 witness: `c6_sockaddr_round_trip` evaluated on 192.0.2.0, on the
non-link-local 2001:db8::1, and on the link-local fe80::1 with zone 3. -/
theorem c6_sockaddr_round_trip_witness :
    (fromSockaddr (toSockaddr (AddrM.v4 [192, 0, 2, 0]) 3) = AddrM.v4 [192, 0, 2, 0]) ∧
    (fromSockaddr
        (toSockaddr (AddrM.v6 [0x20, 0x01, 0x0d, 0xb8, 0, 0, 0, 0, 0, 0, 0, 0, 0, 0, 0, 1] "") 3)
      = AddrM.v6 [0x20, 0x01, 0x0d, 0xb8, 0, 0, 0, 0, 0, 0, 0, 0, 0, 0, 0, 1] "") ∧
    (fromSockaddr
        (toSockaddr (AddrM.v6 [0xfe, 0x80, 0, 0, 0, 0, 0, 0, 0, 0, 0, 0, 0, 0, 0, 1] "") 3)
      = AddrM.v6 [0xfe, 0x80, 0, 0, 0, 0, 0, 0, 0, 0, 0, 0, 0, 0, 0, 1] "3") :=
  ⟨(c6_sockaddr_round_trip [192, 0, 2, 0] 3).1,
   (c6_sockaddr_round_trip [0x20, 0x01, 0x0d, 0xb8, 0, 0, 0, 0, 0, 0, 0, 0, 0, 0, 0, 1] 3).2.1
     (by decide),
   (c6_sockaddr_round_trip [0xfe, 0x80, 0, 0, 0, 0, 0, 0, 0, 0, 0, 0, 0, 0, 0, 1] 3).2.2
     (by decide) (by decide)⟩

/-! ### Claim C7: IPv6 peer sockaddr conversion -/

/-- C7: `fromSockaddrIPv6` fails on an IPv4 sockaddr; rewrites a nonzero zone
equal to the interface index into the interface name; treats a zero zone as
no zone; and fails with an unknown-zone error on any other zone value. -/
theorem c7_fromSockaddrIPv6 (a : List Nat) (zid : Nat) (ifi : InterfaceM) :
    (∀ b, fromSockaddrIPv6 (SockaddrM.inet4 b) ifi
        = .error (.ipv4InIPv6Context (AddrM.v4 b))) ∧
    (zid = ifi.index → zid ≠ 0 →
      fromSockaddrIPv6 (SockaddrM.inet6 a zid) ifi = .ok (AddrM.v6 a ifi.name)) ∧
    (zid = 0 → fromSockaddrIPv6 (SockaddrM.inet6 a zid) ifi = .ok (AddrM.v6 a "")) ∧
    (zid ≠ 0 → zid ≠ ifi.index →
      fromSockaddrIPv6 (SockaddrM.inet6 a zid) ifi = .error (.unknownZone (itoa zid))) := by
  refine ⟨fun b => rfl, fun hidx hz => ?_, fun hz => ?_, fun hz hidx => ?_⟩
  · subst hidx
    simp [fromSockaddrIPv6, fromSockaddr, AddrM.WithZone, AddrM.Is4, AddrM.Zone,
      Nat.pos_of_ne_zero hz]
  · subst hz
    have hne : ¬("" = itoa ifi.index) := fun h => itoa_ne_empty ifi.index h.symm
    simp [fromSockaddrIPv6, fromSockaddr, AddrM.Is4, AddrM.Zone, hne]
  · have hpos : zid > 0 := Nat.pos_of_ne_zero hz
    have h1 : ¬(itoa zid = itoa ifi.index) := fun h => hidx (itoa_inj h)
    have h2 : ¬(itoa zid = "") := itoa_ne_empty zid
    simp [fromSockaddrIPv6, fromSockaddr, AddrM.WithZone, AddrM.Is4, AddrM.Zone,
      hpos, h1, h2]

/-! ### Claims C2, C4, C10: ping correlation engine -/

/-- Looking up a key just written into an association list. -/
theorem alistLookup_set {α β : Type} [DecidableEq α] :
    ∀ (m : List (α × β)) (k : α) (v : β), alistLookup (alistSet m k v) k = some v := by
  intro m k v
  induction m with
  | nil => simp [alistSet, alistLookup]
  | cons p rest ih =>
      obtain ⟨a, b⟩ := p
      by_cases h : a = k
      · simp [alistSet, alistLookup, h]
      · simp [alistSet, alistLookup, h, ih]

/-- C2: the first echo generated for a destination has sequence number 1 with
identifier and payload derived from the fresh random bytes; every later echo
for the same destination keeps the identifier and payload and increments the
sequence number by exactly one; and in the drop-first-request scenario
(timer expiry then reply) the retried request and the returned
`Response.Ping` carry sequence number 2 with the original identifier and
payload. -/
theorem c2_echo_sequencing (pings : PingsMap) (responses : RespMap) (dst : AddrM)
    (d : List Nat) :
    (alistLookup pings dst = none →
      ∃ p2 r2, connEcho pings responses dst (.ok d)
        = .ok ({ id := beUint16 d, seq := 1, data := d }, p2, r2)) ∧
    (∀ (e0 : EchoMsg) (rnd : Except Unit (List Nat)),
      alistLookup pings dst = some e0 →
      ∃ p2, connEcho pings responses dst rnd
        = .ok ({ e0 with seq := e0.seq + 1 }, p2, responses)) ∧
    (∀ r : PingResponseM, pingLoop [] [] dst (.ok d) [.timeout, .reply r]
      = some (.ok { ping := { id := beUint16 d, seq := 2, data := d },
                    pong := r.echoMsg, ip := r.ip })) := by
  refine ⟨fun h => ?_, fun e0 rnd h => ?_, fun r => ?_⟩
  · exact ⟨alistSet pings dst { id := beUint16 d, seq := 1, data := d },
      (match alistLookup responses (beUint16 d) with
        | some _ => responses
        | none => alistSet responses (beUint16 d) none),
      by simp [connEcho, h]⟩
  · exact ⟨alistSet pings dst { e0 with seq := e0.seq + 1 }, by simp [connEcho, h]⟩
  · simp [pingLoop, connEcho, doPingM, alistLookup, alistSet]

/-- C2 witness: `c2_echo_sequencing` on a concrete destination and payload:
the first attempt is dropped, the second is answered, and the returned ping
carries sequence number 2 with identifier 258 = 256·1 + 2. -/
theorem c2_echo_sequencing_witness :
    (∃ p2 r2, connEcho [] [] (AddrM.v4 [192, 0, 2, 1]) (.ok [1, 2, 3, 4, 5, 6, 7, 8])
      = .ok ({ id := beUint16 [1, 2, 3, 4, 5, 6, 7, 8], seq := 1,
               data := [1, 2, 3, 4, 5, 6, 7, 8] }, p2, r2)) ∧
    (pingLoop [] [] (AddrM.v4 [192, 0, 2, 1]) (.ok [1, 2, 3, 4, 5, 6, 7, 8])
        [.timeout, .reply ⟨⟨258, 2, [9]⟩, AddrM.v4 [192, 0, 2, 1]⟩]
      = some (.ok { ping := { id := beUint16 [1, 2, 3, 4, 5, 6, 7, 8], seq := 2,
                              data := [1, 2, 3, 4, 5, 6, 7, 8] },
                    pong := ⟨258, 2, [9]⟩, ip := AddrM.v4 [192, 0, 2, 1] })) :=
  ⟨(c2_echo_sequencing [] [] (AddrM.v4 [192, 0, 2, 1]) [1, 2, 3, 4, 5, 6, 7, 8]).1 rfl,
   (c2_echo_sequencing [] [] (AddrM.v4 [192, 0, 2, 1]) [1, 2, 3, 4, 5, 6, 7, 8]).2.2
     ⟨⟨258, 2, [9]⟩, AddrM.v4 [192, 0, 2, 1]⟩⟩

/-- C10: on first creation for a destination, the 16-bit echo identifier is
the big-endian integer formed from the first two bytes of the 8-byte random
payload stored as the message data, so the payload's first two bytes encode
(and recover) the identifier. -/
theorem c10_id_from_payload (pings : PingsMap) (responses : RespMap) (dst : AddrM)
    (d : List Nat) (h : alistLookup pings dst = none) (hlen : d.length = 8)
    (hb : ∀ x ∈ d, x < 256) :
    ∃ (e : EchoMsg) (p2 : PingsMap) (r2 : RespMap),
      connEcho pings responses dst (.ok d) = .ok (e, p2, r2) ∧
      e.data = d ∧
      e.id = 256 * d.getD 0 0 + d.getD 1 0 ∧
      e.id / 256 = d.getD 0 0 ∧ e.id % 256 = d.getD 1 0 ∧ e.id < 65536 := by
  rcases d with _ | ⟨a, _ | ⟨b, t⟩⟩
  · simp at hlen
  · simp at hlen
  · have ha : a < 256 := hb a (by simp)
    have hbb : b < 256 := hb b (by simp)
    refine ⟨{ id := beUint16 (a :: b :: t), seq := 1, data := a :: b :: t },
      alistSet pings dst { id := beUint16 (a :: b :: t), seq := 1, data := a :: b :: t },
      (match alistLookup responses (beUint16 (a :: b :: t)) with
        | some _ => responses
        | none => alistSet responses (beUint16 (a :: b :: t)) none),
      by simp [connEcho, h], rfl, ?_, ?_, ?_, ?_⟩ <;>
      · simp only [beUint16, List.getD_cons_zero, List.getD_cons_succ]
        omega

/-- C10 witness: `c10_id_from_payload` on the payload 1,2,3,4,5,6,7,8: the
identifier is 258, whose high byte is 1 and low byte is 2. -/
theorem c10_id_from_payload_witness :
    ∃ (e : EchoMsg) (p2 : PingsMap) (r2 : RespMap),
      connEcho [] [] (AddrM.v4 [10, 0, 0, 1]) (.ok [1, 2, 3, 4, 5, 6, 7, 8])
        = .ok (e, p2, r2) ∧
      e.data = [1, 2, 3, 4, 5, 6, 7, 8] ∧
      e.id = 256 * [1, 2, 3, 4, 5, 6, 7, 8].getD 0 0 + [1, 2, 3, 4, 5, 6, 7, 8].getD 1 0 ∧
      e.id / 256 = [1, 2, 3, 4, 5, 6, 7, 8].getD 0 0 ∧
      e.id % 256 = [1, 2, 3, 4, 5, 6, 7, 8].getD 1 0 ∧ e.id < 65536 :=
  c10_id_from_payload [] [] (AddrM.v4 [10, 0, 0, 1]) [1, 2, 3, 4, 5, 6, 7, 8]
    rfl rfl (by decide)

/-- C4: a `Ping` call never surfaces the internal retry sentinel: whenever
the attempt loop terminates with a result, that result is not `errRetry`;
and as long as every attempt ends in timer expiry the loop keeps retrying
(no retry limit), producing no result after any number of timeouts. -/
theorem c4_ping_never_times_out :
    (∀ (pings : PingsMap) (responses : RespMap) (dst : AddrM)
        (rnd : Except Unit (List Nat)) (ocs : List DoPingOutcome)
        (res : Except PingError ResponseM),
      pingLoop pings responses dst rnd ocs = some res → res ≠ .error .retrySentinel) ∧
    (∀ (pings : PingsMap) (responses : RespMap) (dst : AddrM)
        (rnd : Except Unit (List Nat)) (n : Nat),
      ((∃ e, alistLookup pings dst = some e) ∨ (∃ d, rnd = .ok d)) →
      pingLoop pings responses dst rnd (List.replicate n .timeout) = none) := by
  constructor
  · intro pings responses dst rnd ocs res
    induction ocs generalizing pings responses with
    | nil => intro h; simp [pingLoop] at h
    | cons oc rest ih =>
        intro h
        simp only [pingLoop] at h
        cases hc : connEcho pings responses dst rnd with
        | error e =>
            rw [hc] at h
            simp at h
            simp [← h]
        | ok trip =>
            obtain ⟨e, p2, r2⟩ := trip
            rw [hc] at h
            cases oc with
            | sendErr => simp [doPingM] at h; simp [← h]
            | reply r => simp [doPingM] at h; simp [← h]
            | timeout => exact ih p2 r2 (by simpa [doPingM] using h)
            | cancelled => simp [doPingM] at h; simp [← h]
  · intro pings responses dst rnd n
    induction n generalizing pings responses with
    | zero => intro _; simp [pingLoop]
    | succ n ih =>
        intro hst
        rw [List.replicate_succ]
        rcases hst with ⟨e, he⟩ | ⟨d, hd⟩
        · simp only [pingLoop, connEcho, he, doPingM]
          exact ih _ _ (Or.inl ⟨_, alistLookup_set pings dst _⟩)
        · subst hd
          cases hl : alistLookup pings dst with
          | some e =>
              simp only [pingLoop, connEcho, hl, doPingM]
              exact ih _ _ (Or.inl ⟨_, alistLookup_set pings dst _⟩)
          | none =>
              simp only [pingLoop, connEcho, hl, doPingM]
              exact ih _ _ (Or.inl ⟨_, alistLookup_set pings dst _⟩)

/-- C4 witness: `c4_ping_never_times_out` on a concrete run: a cancelled
attempt returns the cancellation (not the retry sentinel), and three straight
timeouts leave the loop still running. -/
theorem c4_ping_never_times_out_witness :
    ((Except.error PingError.ctxCancelled : Except PingError ResponseM)
      ≠ .error .retrySentinel) ∧
    (pingLoop [] [] (AddrM.v4 [10, 0, 0, 9]) (.ok [0, 0, 0, 0, 0, 0, 0, 0])
      (List.replicate 3 .timeout) = none) :=
  ⟨c4_ping_never_times_out.1 [] [] (AddrM.v4 [10, 0, 0, 9]) (.ok [0, 0, 0, 0, 0, 0, 0, 0])
      [.cancelled] (.error .ctxCancelled) rfl,
   c4_ping_never_times_out.2 [] [] (AddrM.v4 [10, 0, 0, 9]) (.ok [0, 0, 0, 0, 0, 0, 0, 0])
      3 (Or.inr ⟨_, rfl⟩)⟩

/-- C7 witness: `c7_fromSockaddrIPv6` evaluated against the interface
(index 2, name eth0) on zones 2, 0 and 5 and an IPv4 sockaddr. -/
theorem c7_fromSockaddrIPv6_witness :
    (fromSockaddrIPv6 (SockaddrM.inet4 [10, 0, 0, 1]) ⟨2, "eth0", 1500⟩
      = .error (.ipv4InIPv6Context (AddrM.v4 [10, 0, 0, 1]))) ∧
    (fromSockaddrIPv6 (SockaddrM.inet6 (List.replicate 16 0) 2) ⟨2, "eth0", 1500⟩
      = .ok (AddrM.v6 (List.replicate 16 0) "eth0")) ∧
    (fromSockaddrIPv6 (SockaddrM.inet6 (List.replicate 16 0) 0) ⟨2, "eth0", 1500⟩
      = .ok (AddrM.v6 (List.replicate 16 0) "")) ∧
    (fromSockaddrIPv6 (SockaddrM.inet6 (List.replicate 16 0) 5) ⟨2, "eth0", 1500⟩
      = .error (.unknownZone (itoa 5))) :=
  ⟨(c7_fromSockaddrIPv6 (List.replicate 16 0) 2 ⟨2, "eth0", 1500⟩).1 [10, 0, 0, 1],
   (c7_fromSockaddrIPv6 (List.replicate 16 0) 2 ⟨2, "eth0", 1500⟩).2.1 rfl (by decide),
   (c7_fromSockaddrIPv6 (List.replicate 16 0) 0 ⟨2, "eth0", 1500⟩).2.2.1 rfl,
   (c7_fromSockaddrIPv6 (List.replicate 16 0) 5 ⟨2, "eth0", 1500⟩).2.2.2 (by decide) (by decide)⟩

end Icmpx
